import Mathlib

/-!
Shallow embedding of the `near-multichain-xchain-relayer` contract
(`src/src/lib.rs`) and of its mock signer (`src/mock/signer/src/lib.rs`).

Conventions of the embedding:
* NEAR account ids and signer key paths are `String`s.
* Foreign-chain (EVM) 160-bit addresses are modelled as `Nat`.
* Machine integers (`u64`, `u128`, `U256`) are modelled as `Nat`; where the
  source's arithmetic can overflow (the `uint`-crate `U256` operations panic
  on overflow, `as_u128` panics above `2^128`), the embedding returns `none`.
* A host-side panic (`env::panic_str`, `require!` failure, `unwrap`) aborts
  the whole call and commits none of its state mutations; every fallible
  operation is therefore embedded as a function into `Option`, where `none`
  is the aborted call and `some` carries the new state and return value.
* Asynchronous promises are modelled by splitting each two-phase operation
  into its two scheduled halves exactly as the source does
  (`initiate_transaction` / `initiate_transaction_callback`,
  `sign_next` / `sign_next_callback`); the state committed by the first half
  is the state the second half (or any interleaved call) starts from.
-/

/-- EVM addresses (`H160` in the source) are abstracted to `Nat`. -/
abbrev XChainAddress := Nat

/-- NEAR `AccountId`. -/
abbrev AccountId := String

/-- Type `ethers::types::NameOrAddress`: an EVM `to` field is either an ENS name
or a literal address. -/
inductive NameOrAddress where
  | Name (s : String)
  | Addr (a : XChainAddress)
deriving DecidableEq, Repr

/-- The fields of `ethers::types::transaction::eip2718::TypedTransaction`
that `src/src/lib.rs` reads (`gas()`, `gas_price()`, `chain_id()`, `to()`,
`from()`) or writes when building the paymaster `TransactionRequest`
(`chain_id`, `from`, `to`, `value`). `from` is a Lean keyword, hence the
field name `tx_from`. -/
structure TypedTransaction where
  gas : Option Nat
  gas_price : Option Nat
  chain_id : Option Nat
  tx_to : Option NameOrAddress
  tx_from : Option XChainAddress
  value : Option Nat
deriving DecidableEq, Repr

/-- An ECDSA signature (`ethers::types::Signature`), abstracted to its three
components; its numeric content is never inspected by the contract. -/
structure Signature where
  r : Nat
  s : Nat
  v : Nat
deriving DecidableEq, Repr

/-- Modelled from the spec: `src/signature_request.rs` is not part of the
provided sources. Section 3 of the spec gives the status as a variant over
`Pending (in_flight : bool) (key_path : string)` and `Signed signature`, and
the pattern matches in `src/src/lib.rs` (`sign_next`) confirm the field
layout. -/
inductive SignatureRequestStatus where
  | Pending (in_flight : Bool) (key_path : String)
  | Signed (signature : Signature)
deriving DecidableEq, Repr

/-- Modelled from the spec: one signing task, an immutable transaction plus
a mutable status (spec section 3, `SignatureRequest`). -/
structure SignatureRequest where
  transaction : TypedTransaction
  status : SignatureRequestStatus
deriving DecidableEq, Repr

namespace SignatureRequest

/-- Modelled from the spec: `SignatureRequest::new(key_path, transaction)`
initializes the entry `Pending { in_flight: false, key_path }`
(spec section 4.4 step 7). -/
def new (key_path : String) (transaction : TypedTransaction) : SignatureRequest :=
  { transaction := transaction
    status := SignatureRequestStatus.Pending false key_path }

/-- Modelled from the spec: `request.is_pending()` tests whether the status
is still `Pending` (spec section 4.5, callback step 2). -/
def is_pending (r : SignatureRequest) : Bool :=
  match r.status with
  | SignatureRequestStatus.Pending _ _ => true
  | SignatureRequestStatus.Signed _ => false

/-- Modelled from the spec: `request.set_signature(signature)` moves the
status to `Signed { signature }` (spec section 4.5, callback step 4). -/
def set_signature (r : SignatureRequest) (signature : Signature) : SignatureRequest :=
  { r with status := SignatureRequestStatus.Signed signature }

end SignatureRequest

/-- The two boolean feature flags of the contract. -/
structure Flags where
  is_sender_whitelist_enabled : Bool
  is_receiver_whitelist_enabled : Bool
deriving DecidableEq, Repr

/-- Structure `GasTokenPrice` from `src/src/lib.rs`. -/
structure GasTokenPrice where
  local_per_xchain : Nat × Nat
  updated_at_block_height : Nat
deriving DecidableEq, Repr

/-- Structure `TransactionInitiation` from `src/src/lib.rs`: the value returned by
`initiate_transaction_callback`. -/
structure TransactionInitiation where
  id : Nat
  pending_signature_count : Nat
deriving DecidableEq, Repr

/-- Modelled from the spec: the oracle response shape of `src/oracle.rs`
(not among the provided sources); spec section 6 gives
`{asset_id, price: optional{multiplier, decimals}}`. -/
structure Price where
  multiplier : Nat
  decimals : Nat
deriving DecidableEq, Repr

/-- Modelled from the spec: one entry of the oracle response. -/
structure AssetOptionalPrice where
  asset_id : String
  price : Option Price
deriving DecidableEq, Repr

/-- Modelled from the spec: the oracle response, an ordered list of asset
prices. -/
structure PriceData where
  prices : List AssetOptionalPrice
deriving DecidableEq, Repr

/-- Field `pending_transactions`: `UnorderedMap<u64, Vec<SignatureRequest>>`,
modelled as an association list from id to batch. -/
abbrev PendingMap := List (Nat × List SignatureRequest)

/-- Lookup in the pending-transactions map (`UnorderedMap::get`). -/
def mapFind? (m : PendingMap) (k : Nat) : Option (List SignatureRequest) :=
  match m with
  | [] => none
  | (k', v') :: rest => if k' = k then some v' else mapFind? rest k

/-- Insert/overwrite in the pending-transactions map
(`UnorderedMap::insert`). -/
def mapInsert (m : PendingMap) (k : Nat) (v : List SignatureRequest) : PendingMap :=
  match m with
  | [] => [(k, v)]
  | (k', v') :: rest =>
      if k' = k then (k, v) :: rest else (k', v') :: mapInsert rest k v

/-- The contract state (`struct Contract` in `src/src/lib.rs`); the owner
bookkeeping of `near-sdk-contract-tools` is out of scope. -/
structure Contract where
  next_unique_id : Nat
  signer_contract_id : AccountId
  oracle_id : AccountId
  oracle_local_asset_id : String
  oracle_xchain_asset_id : String
  supported_foreign_chain_ids : List Nat
  sender_whitelist : List XChainAddress
  receiver_whitelist : List XChainAddress
  flags : Flags
  price_scale : Nat × Nat
  pending_transactions : PendingMap
deriving DecidableEq, Repr

/-- Function `transaction_fee` (`src/src/lib.rs` lines 108-119).  The source computes
`a = request_tokens_for_gas * U256::from(conversion_rate.0) * U256::from(price_scale.0)`
in `U256`, whose `Mul` panics on overflow; `div_mod` panics on a zero
divisor; the final `as_u128` panics when the rounded quotient does not fit
in `u128`.  Each of those panics is `none` here. -/
def transaction_fee (conversion_rate : Nat × Nat) (price_scale : Nat × Nat)
    (request_tokens_for_gas : Nat) : Option Nat :=
  let p1 := request_tokens_for_gas * conversion_rate.1
  if 2 ^ 256 ≤ p1 then none else
  let a := p1 * price_scale.1
  if 2 ^ 256 ≤ a then none else
  let d := conversion_rate.2 * price_scale.2
  if 2 ^ 256 ≤ d then none else
  if d = 0 then none else
  let b := a / d
  let rem := a % d
  let f := if rem = 0 then b else b + 1
  if 2 ^ 128 ≤ f then none else some f

/-- Modelled from the spec: `tokens_for_gas` lives in `src/utils.rs`, which
is not among the provided sources; spec section 4.4 step 4 defines the
transaction's total gas-token requirement as `gas_price * gas_limit`.
`none` when either field is unset (the source `unwrap`s, with the comment
that validation ensures gas is set). -/
def tokens_for_gas (t : TypedTransaction) : Option Nat :=
  match t.gas, t.gas_price with
  | some g, some p => some (g * p)
  | _, _ => none

/-- Function `process_oracle_result` (`src/src/lib.rs` lines 221-246): a failed
promise or any response other than exactly the two requested assets, in
order, each with a present price, panics. -/
def process_oracle_result (c : Contract) (result : Option PriceData)
    (block_height : Nat) : Option GasTokenPrice :=
  match result with
  | none => none
  | some price_data =>
    match price_data.prices with
    | [first, second] =>
      match first.price, second.price with
      | some local_price, some xchain_price =>
          if first.asset_id = c.oracle_local_asset_id
              ∧ second.asset_id = c.oracle_xchain_asset_id then
            some { local_per_xchain :=
                     (xchain_price.multiplier * local_price.decimals,
                      local_price.multiplier * xchain_price.decimals)
                   updated_at_block_height := block_height }
          else none
      | _, _ => none
    | _ => none

/-- Function `validate_transaction` (`src/src/lib.rs` lines 250-296), as a decidable
pass/abort check; every `require!`/`panic_str` failure is `false`. -/
def validate_transaction (c : Contract) (t : TypedTransaction) : Bool :=
  (t.gas.isSome && t.gas_price.isSome) &&
  t.chain_id.isSome &&
  (match t.tx_to with
   | some (NameOrAddress.Name _) => false
   | some (NameOrAddress.Addr receiver) =>
       !c.flags.is_receiver_whitelist_enabled
         || c.receiver_whitelist.contains receiver
   | none => false) &&
  (!c.flags.is_sender_whitelist_enabled ||
    match t.tx_from with
    | some sender => c.sender_whitelist.contains sender
    | none => false)

/-- Function `extract_transaction` (`src/src/lib.rs` lines 449-469).  Hex decoding
and RLP decoding are library capabilities (out of scope per spec section 1)
and are abstracted into the `decode` argument, `none` standing for either
decode panic. -/
def extract_transaction (decode : String → Option TypedTransaction)
    (transaction_json : Option TypedTransaction)
    (transaction_rlp : Option String) : Option TypedTransaction :=
  match transaction_json with
  | some t => some t
  | none =>
    match transaction_rlp with
    | some rlp_hex => decode rlp_hex
    | none => none

/-- The outbound oracle call that a successful `initiate_transaction`
issues, together with the arguments it fixes for its own callback
(`src/src/lib.rs` lines 313-319). -/
structure OracleCall where
  oracle_id : AccountId
  asset_ids : List String
  cb_predecessor : AccountId
  cb_deposit : Nat
  cb_transaction : TypedTransaction
deriving DecidableEq, Repr

/-- Function `initiate_transaction` (`src/src/lib.rs` lines 300-320): the synchronous
first half.  It never mutates the contract (the returned state is the input
state); `none` in the second component means the call aborted before any
oracle request was issued. -/
def initiate_transaction (c : Contract) (env_predecessor : AccountId)
    (deposit : Nat) (decode : String → Option TypedTransaction)
    (transaction_json : Option TypedTransaction)
    (transaction_rlp : Option String) : Contract × Option OracleCall :=
  if deposit = 0 then (c, none)
  else
    match extract_transaction decode transaction_json transaction_rlp with
    | none => (c, none)
    | some transaction =>
      if validate_transaction c transaction then
        (c, some { oracle_id := c.oracle_id
                   asset_ids := [c.oracle_local_asset_id, c.oracle_xchain_asset_id]
                   cb_predecessor := env_predecessor
                   cb_deposit := deposit
                   cb_transaction := transaction })
      else (c, none)

/-- A NEAR balance transfer `Promise::new(receiver).transfer(amount)`. -/
structure Transfer where
  receiver : AccountId
  amount : Nat
deriving DecidableEq, Repr

/-- Function `initiate_transaction_callback` (`src/src/lib.rs` lines 322-377).
`env_predecessor` is `env::predecessor_account_id()` observed inside the
callback; the `#[private]` attribute guarantees it equals the contract's
own account id.  `predecessor` is the original caller forwarded from
`initiate_transaction`.  On success: the new contract state, the transfers
issued, and the returned `TransactionInitiation`.  `none` is a panic, which
also drops any receipt the call would have created. -/
def initiate_transaction_callback (c : Contract) (env_predecessor : AccountId)
    (block_height : Nat) (predecessor : AccountId) (deposit : Nat)
    (transaction : TypedTransaction) (result : Option PriceData) :
    Option (Contract × List Transfer × TransactionInitiation) :=
  match process_oracle_result c result block_height with
  | none => none
  | some gas_token_price =>
    match tokens_for_gas transaction with
    | none => none
    | some request_tokens_for_gas =>
      match transaction_fee gas_token_price.local_per_xchain c.price_scale
          request_tokens_for_gas with
      | none => none
      | some fee =>
        if deposit < fee then none
        else
          let transfers : List Transfer :=
            if deposit - fee = 0 then []
            else [{ receiver := predecessor, amount := deposit - fee }]
          match transaction.chain_id, transaction.tx_from with
          | some cid, some sender =>
            let paymaster_transaction : TypedTransaction :=
              { gas := none
                gas_price := none
                chain_id := some cid
                tx_to := some (NameOrAddress.Addr sender)
                tx_from := none
                value := some request_tokens_for_gas }
            let transactions : List SignatureRequest :=
              [SignatureRequest.new "$" paymaster_transaction,
               SignatureRequest.new env_predecessor transaction]
            if c.next_unique_id = 2 ^ 64 - 1 then none
            else
              let id := c.next_unique_id
              some ({ c with
                        next_unique_id := id + 1
                        pending_transactions :=
                          mapInsert c.pending_transactions id transactions },
                    transfers,
                    { id := id, pending_signature_count := transactions.length })
          | _, _ => none

/-- The outbound signer call that a successful `sign_next` issues, together
with the `(id, index)` it fixes for `sign_next_callback`
(`src/src/lib.rs` lines 403-405).  The payload is the transaction whose
digest (`sighash`, a library capability, out of scope per spec section 1)
the signer is asked to sign. -/
structure SignerCall where
  signer_contract_id : AccountId
  payload : TypedTransaction
  key_path : String
  cb_id : Nat
  cb_index : Nat
deriving DecidableEq, Repr

/-- The scan-and-flag loop at the heart of `sign_next`
(`src/src/lib.rs` lines 388-401): iterate over the batch in index order,
select the first entry whose status is `Pending` with `in_flight = false`,
set that entry's `in_flight` to `true` in place, and return its index, the
updated batch, its transaction and its key path; `none` when no entry is
eligible. -/
def sign_next_scan : List SignatureRequest →
    Option (Nat × List SignatureRequest × TypedTransaction × String)
  | [] => none
  | r :: rest =>
    match r.status with
    | SignatureRequestStatus.Pending false key_path =>
        some (0, { r with status := SignatureRequestStatus.Pending true key_path } :: rest,
              r.transaction, key_path)
    | _ =>
        (sign_next_scan rest).map
          (fun x => (x.1 + 1, r :: x.2.1, x.2.2.1, x.2.2.2))

/-- Function `sign_next` (`src/src/lib.rs` lines 379-406): look up the batch (a
missing id panics), run the scan (no eligible entry panics), commit the
`in_flight := true` mutation to the state, and issue the signer call.  The
mutation is committed synchronously, before the call suspends: the state in
the returned pair is the one any interleaved call observes. -/
def sign_next (c : Contract) (id : Nat) : Option (Contract × SignerCall) :=
  match mapFind? c.pending_transactions id with
  | none => none
  | some batch =>
    match sign_next_scan batch with
    | none => none
    | some (index, batch', transaction, key_path) =>
        some ({ c with pending_transactions :=
                  mapInsert c.pending_transactions id batch' },
              { signer_contract_id := c.signer_contract_id
                payload := transaction
                key_path := key_path
                cb_id := id
                cb_index := index })

/-- Function `sign_next_callback` (`src/src/lib.rs` lines 408-446).  `result` is the
awaited signer outcome after decoding: the source aborts both when the
promise failed and when the `MpcSignature` fails to decode into an ECDSA
signature (`src/signer_contract.rs` is not among the provided sources, so
the two failures are collapsed into `result = none`, following spec
section 4.5 callback step 3).  `rlp_signed` serializes a transaction with
its signature to the signed wire bytes and is a library capability
(out of scope per spec section 1), abstracted as an argument; the returned
`String` is its hex encoding. -/
def sign_next_callback (rlp_signed : TypedTransaction → Signature → String)
    (c : Contract) (id : Nat) (index : Nat) (result : Option Signature) :
    Option (Contract × String) :=
  match mapFind? c.pending_transactions id with
  | none => none
  | some batch =>
    match batch.get? index with
    | none => none
    | some request =>
      if ¬ request.is_pending then none
      else
        match result with
        | none => none
        | some signature =>
            let batch' := batch.set index (request.set_signature signature)
            some ({ c with pending_transactions :=
                      mapInsert c.pending_transactions id batch' },
                  rlp_signed request.transaction signature)

/-- An entry of the batch map addressed by `(id, index)`, as a status;
used to state the lifecycle invariants. -/
def statusOf (c : Contract) (id : Nat) (index : Nat) :
    Option SignatureRequestStatus :=
  (mapFind? c.pending_transactions id).bind
    (fun batch => (batch.get? index).map SignatureRequest.status)

/-- An entry is eligible for selection by `sign_next` when it is `Pending`
and not in flight (`src/src/lib.rs` lines 390-394). -/
def eligible (r : SignatureRequest) : Bool :=
  match r.status with
  | SignatureRequestStatus.Pending false _ => true
  | _ => false

/-- Constant `KEY_VERSION` of the mock signer (`src/mock/signer/src/lib.rs`
line 17). -/
def KEY_VERSION : Nat := 0

/-- The `SignRequest` consumed by the mock signer's `sign`
(`src/mock/signer/src/lib.rs`): a 32-byte payload digest (abstracted to
`Nat`), a derivation path and a key version. -/
structure SignRequest where
  payload : Nat
  path : String
  key_version : Nat
deriving DecidableEq, Repr

/-- The `SignatureResponse` produced by the mock signer: `big_r`, `s` and a
recovery id; the hex contents are opaque to the claims. -/
structure SignatureResponse where
  big_r : String
  s : String
  recovery_id : Nat
deriving DecidableEq, Repr

/-- Function `MockSignerContract::sign` (`src/mock/signer/src/lib.rs` lines 26-54):
`require!(request.key_version == KEY_VERSION)` aborts on any other key
version; the remaining body (spoof-key derivation from the predecessor and
the path, prehash ECDSA signing, response assembly) is cryptography,
abstracted into the `crypto` argument whose own `unwrap` panics are its
`none` results. -/
def MockSignerContract.sign
    (crypto : AccountId → SignRequest → Option SignatureResponse)
    (predecessor : AccountId) (request : SignRequest) :
    Option SignatureResponse :=
  if request.key_version = KEY_VERSION then crypto predecessor request
  else none

/-- Function `MockSignerContract::latest_key_version`
(`src/mock/signer/src/lib.rs` lines 75-77). -/
def MockSignerContract.latest_key_version : Nat := KEY_VERSION

/-! ### Concrete example values used by witnesses and counterexamples -/

/-- A fully-specified valid transaction: explicit gas, gas price, chain id,
a literal receiver address and a sender address. -/
def txW : TypedTransaction :=
  { gas := some 3
    gas_price := some 5
    chain_id := some 1
    tx_to := some (NameOrAddress.Addr 77)
    tx_from := some 42
    value := some 9 }

/-- A freshly-constructed contract state (both whitelists disabled, the
`(120, 100)` markup scale of `Contract::new`, empty batch map). -/
def cW : Contract :=
  { next_unique_id := 0
    signer_contract_id := "signer.near"
    oracle_id := "oracle.near"
    oracle_local_asset_id := "wrap.near"
    oracle_xchain_asset_id := "eth"
    supported_foreign_chain_ids := []
    sender_whitelist := []
    receiver_whitelist := []
    flags := { is_sender_whitelist_enabled := false
               is_receiver_whitelist_enabled := false }
    price_scale := (120, 100)
    pending_transactions := [] }

/-- A well-formed oracle response for `cW`: both requested assets, in
order, both with a present price. -/
def pdW : PriceData :=
  { prices := [{ asset_id := "wrap.near"
                 price := some { multiplier := 5, decimals := 24 } },
               { asset_id := "eth"
                 price := some { multiplier := 7, decimals := 18 } }] }

/-! ### Helper lemmas -/

theorem mapFind?_insert_self (m : PendingMap) (k : Nat)
    (v : List SignatureRequest) : mapFind? (mapInsert m k v) k = some v := by
  induction m with
  | nil => simp [mapInsert, mapFind?]
  | cons hd tl ih =>
      by_cases h : hd.1 = k
      · simp [mapInsert, mapFind?, h]
      · simpa [mapInsert, mapFind?, h] using ih

theorem mapFind?_insert_ne (m : PendingMap) (k k' : Nat)
    (v : List SignatureRequest) (h : k' ≠ k) :
    mapFind? (mapInsert m k v) k' = mapFind? m k' := by
  have h' : k ≠ k' := Ne.symm h
  induction m with
  | nil => simp [mapInsert, mapFind?, h']
  | cons hd tl ih =>
      obtain ⟨k1, v1⟩ := hd
      by_cases hk : k1 = k
      · subst hk
        simp [mapInsert, mapFind?, h']
      · simp [mapInsert, mapFind?, hk, ih]

/-- The exact upward-rounded quotient: for a nonzero divisor,
`a / d` rounded up equals `(a + d - 1) / d`. -/
theorem round_up_div_eq (a d : Nat) (hd : d ≠ 0) :
    (if a % d = 0 then a / d else a / d + 1) = (a + d - 1) / d := by
  have hd' : 0 < d := Nat.pos_of_ne_zero hd
  have key : ∀ q r : Nat, r < d → (d * q + r) / d = q := by
    intro q r hr
    simp [Nat.mul_add_div hd', Nat.div_eq_of_lt hr]
  rcases Nat.eq_zero_or_pos (a % d) with h | h
  · rw [if_pos h]
    have ha : d * (a / d) = a := Nat.mul_div_cancel' (Nat.dvd_of_mod_eq_zero h)
    have h2 : a + d - 1 = d * (a / d) + (d - 1) := by
      conv_lhs => rw [← ha]
      rw [Nat.add_sub_assoc hd']
    rw [h2, key _ _ (by omega)]
  · rw [if_neg (by omega)]
    have ha : d * (a / d) + a % d = a := Nat.div_add_mod a d
    have hlt : a % d < d := Nat.mod_lt _ hd'
    have hexp : d * (a / d + 1) = d * (a / d) + d := Nat.mul_succ d (a / d)
    obtain ⟨X, hX⟩ : ∃ X, d * (a / d) = X := ⟨_, rfl⟩
    rw [hX] at ha hexp
    have h2 : a + d - 1 = d * (a / d + 1) + (a % d - 1) := by
      rw [hexp]; omega
    rw [h2, key _ _ (by omega)]

/-! ### Claim C6 — fee equals the upward-rounded quotient -/

/-- Claim C6, counterexample: at the spec's own example ratios, price ratio
`(3, 2)` and markup `(120, 100)`, and gas-token amount `2 ^ 255` (inside the
256-bit amount range), the `U256` product `amount * 3` overflows, so the
source panics instead of producing the upward-rounded quotient: the fee is
not `ceil(amount * 3 * 120 / 200)`. -/
theorem transaction_fee_cex_C6 :
    transaction_fee (3, 2) (120, 100) (2 ^ 255)
      ≠ some ((2 ^ 255 * 3 * 120 + (2 * 100) - 1) / (2 * 100)) := by
  decide

/-- Claim C6 (amended): whenever the `U256` products
`amount * price_num` and `amount * price_num * markup_num` do not overflow
256 bits, the denominator product is nonzero (and fits 256 bits, which is
automatic for `u128` components), and the upward-rounded quotient fits in
`u128`, `transaction_fee` returns exactly
`ceil(amount * price_num * markup_num / (price_den * markup_den))`,
rounding upward; with price ratio `(3, 2)` and markup `(120, 100)`, amount
`10` gives fee `18` and amount `7` gives fee `13`.  Outside that range the
call panics (it never returns a wrong fee). -/
theorem transaction_fee_eq_ceil :
    (∀ cr ps : Nat × Nat, ∀ amt : Nat,
        amt * cr.1 < 2 ^ 256 →
        amt * cr.1 * ps.1 < 2 ^ 256 →
        cr.2 * ps.2 ≠ 0 →
        cr.2 * ps.2 < 2 ^ 256 →
        (amt * cr.1 * ps.1 + cr.2 * ps.2 - 1) / (cr.2 * ps.2) < 2 ^ 128 →
        transaction_fee cr ps amt
          = some ((amt * cr.1 * ps.1 + cr.2 * ps.2 - 1) / (cr.2 * ps.2))) ∧
    transaction_fee (3, 2) (120, 100) 10 = some 18 ∧
    transaction_fee (3, 2) (120, 100) 7 = some 13 := by
  refine ⟨?_, by decide, by decide⟩
  intro cr ps amt h1 h2 hd0 hd hf
  simp only [transaction_fee]
  rw [if_neg (not_le.mpr h1), if_neg (not_le.mpr h2), if_neg (not_le.mpr hd),
    if_neg hd0, round_up_div_eq _ _ hd0, if_neg (not_le.mpr hf)]

/-- Claim C6, witness: the amended theorem applied at price ratio `(3, 2)`,
markup `(120, 100)`, amount `10`. -/
theorem transaction_fee_eq_ceil_witness :
    transaction_fee (3, 2) (120, 100) 10
      = some ((10 * 3 * 120 + 2 * 100 - 1) / (2 * 100)) :=
  transaction_fee_eq_ceil.1 (3, 2) (120, 100) 10 (by decide) (by decide)
    (by decide) (by decide) (by decide)

/-! ### Claim C8 — overflow behaviour of the fee computation -/

/-- Claim C8, counterexample: the gas-token amount `2 ^ 256 - 1` is in the
full 256-bit range and the ratio components `(2, 1)` and `(1, 1)` are
nonzero `u128` values, yet the first `U256` multiplication
`amount * 2` overflows and the source panics: the fee computation does not
avoid arithmetic overflow on the full claimed domain. -/
theorem transaction_fee_cex_C8 :
    transaction_fee (2, 1) (1, 1) (2 ^ 256 - 1) = none ∧
    2 ^ 256 - 1 < 2 ^ 256 ∧ (0 : Nat) < 2 ∧ (0 : Nat) < 1 ∧
    (2 : Nat) < 2 ^ 128 ∧ (1 : Nat) < 2 ^ 128 := by
  decide

/-- Claim C8 (amended): the fee computation is overflow-safe only on the
sub-range where the running `U256` products stay below `2 ^ 256` and the
upward-rounded quotient fits in `u128`; on that sub-range it succeeds, and
whenever it succeeds at all its result fits in `u128`.  Outside the
sub-range the `U256` arithmetic (or the final `as_u128` cast) panics, so no
wrapped or truncated fee is ever returned. -/
theorem transaction_fee_overflow_safety :
    (∀ cr ps : Nat × Nat, ∀ amt f : Nat,
        transaction_fee cr ps amt = some f → f < 2 ^ 128) ∧
    (∀ cr ps : Nat × Nat, ∀ amt : Nat,
        amt * cr.1 < 2 ^ 256 →
        amt * cr.1 * ps.1 < 2 ^ 256 →
        cr.2 * ps.2 ≠ 0 →
        cr.2 * ps.2 < 2 ^ 256 →
        (amt * cr.1 * ps.1 + cr.2 * ps.2 - 1) / (cr.2 * ps.2) < 2 ^ 128 →
        (transaction_fee cr ps amt).isSome) := by
  constructor
  · intro cr ps amt f h
    simp only [transaction_fee] at h
    split at h
    · exact Option.noConfusion h
    · split at h
      · exact Option.noConfusion h
      · split at h
        · exact Option.noConfusion h
        · split at h
          · exact Option.noConfusion h
          · split at h <;> split at h
            · exact Option.noConfusion h
            · rename_i hc
              injection h with hf
              rw [← hf]
              exact not_le.mp hc
            · exact Option.noConfusion h
            · rename_i hc
              injection h with hf
              rw [← hf]
              exact not_le.mp hc
  · intro cr ps amt h1 h2 hd0 hd hf
    simp only [transaction_fee]
    rw [if_neg (not_le.mpr h1), if_neg (not_le.mpr h2), if_neg (not_le.mpr hd),
      if_neg hd0, round_up_div_eq _ _ hd0, if_neg (not_le.mpr hf)]
    rfl

/-- Claim C8, witness: the amended theorem applied at price ratio `(3, 2)`,
markup `(120, 100)`, amount `7`: the computation succeeds and its result is
below `2 ^ 128`. -/
theorem transaction_fee_overflow_safety_witness :
    (13 : Nat) < 2 ^ 128 ∧ (transaction_fee (3, 2) (120, 100) 7).isSome :=
  ⟨transaction_fee_overflow_safety.1 (3, 2) (120, 100) 7 13 (by decide),
   transaction_fee_overflow_safety.2 (3, 2) (120, 100) 7 (by decide) (by decide)
     (by decide) (by decide) (by decide)⟩

/-! ### Claim C7 — which transaction argument combinations are accepted -/

/-- Claim C7, counterexample: supplying both `transaction_json` and
`transaction_rlp` is not an error.  `extract_transaction` is built on
`Option::or_else`, so the structured transaction wins and the RLP argument
is never even decoded (here the decoder rejects everything, yet the call
still succeeds with the JSON transaction). -/
theorem extract_transaction_cex_C7 :
    extract_transaction (fun _ => none) (some txW) (some "00") = some txW := by
  rfl

/-- Claim C7 (amended): `initiate_transaction` requires at least one of
`transaction_json` and `transaction_rlp`: supplying neither is an error and
the call aborts with no state change; supplying both is not an error —
`transaction_json` takes precedence and `transaction_rlp` is ignored;
supplying only `transaction_rlp` defers to the RLP decoder, whose failure
aborts the call. -/
theorem extract_transaction_spec :
    (∀ decode : String → Option TypedTransaction,
        extract_transaction decode none none = none) ∧
    (∀ decode : String → Option TypedTransaction,
      ∀ t : TypedTransaction, ∀ rlp : Option String,
        extract_transaction decode (some t) rlp = some t) ∧
    (∀ decode : String → Option TypedTransaction, ∀ s : String,
        extract_transaction decode none (some s) = decode s) ∧
    (∀ c : Contract, ∀ env_predecessor : AccountId, ∀ deposit : Nat,
      ∀ decode : String → Option TypedTransaction,
        initiate_transaction c env_predecessor deposit decode none none
          = (c, none)) := by
  refine ⟨fun _ => rfl, fun _ _ _ => rfl, fun _ _ => rfl, ?_⟩
  intro c env_predecessor deposit decode
  by_cases h : deposit = 0 <;>
    simp [initiate_transaction, extract_transaction, h]

/-! ### Claim C10 — mock signer key-version gate -/

/-- Claim C10: the mock signer's `sign` aborts (`require!` failure) for
every request whose `key_version` is not `0`; it can only succeed when the
key version is `0`; and `0` is both `KEY_VERSION` and the value returned by
`latest_key_version`. -/
theorem mock_signer_key_version_gate :
    (∀ crypto : AccountId → SignRequest → Option SignatureResponse,
      ∀ predecessor : AccountId, ∀ request : SignRequest,
        request.key_version ≠ 0 →
        MockSignerContract.sign crypto predecessor request = none) ∧
    (∀ crypto : AccountId → SignRequest → Option SignatureResponse,
      ∀ predecessor : AccountId, ∀ request : SignRequest,
        (MockSignerContract.sign crypto predecessor request).isSome →
        request.key_version = 0) ∧
    MockSignerContract.latest_key_version = 0 ∧ KEY_VERSION = 0 := by
  refine ⟨?_, ?_, rfl, rfl⟩
  · intro crypto predecessor request h
    simp [MockSignerContract.sign, KEY_VERSION, h]
  · intro crypto predecessor request h
    by_cases hv : request.key_version = 0
    · exact hv
    · simp [MockSignerContract.sign, KEY_VERSION, hv] at h

/-- Claim C10, witness: a request with key version `1` is rejected even
when the abstracted cryptographic core would succeed. -/
theorem mock_signer_key_version_gate_witness :
    MockSignerContract.sign
      (fun _ _ => some { big_r := "r", s := "s", recovery_id := 0 })
      "alice.near" { payload := 0, path := "p", key_version := 1 } = none :=
  mock_signer_key_version_gate.1 _ _ _ (by decide)

/-! ### Scan lemmas for the signing protocol -/

theorem sign_next_scan_eq_none_iff (b : List SignatureRequest) :
    sign_next_scan b = none ↔ ∀ r ∈ b, eligible r = false := by
  induction b with
  | nil => simp [sign_next_scan]
  | cons r rest ih =>
      cases hs : r.status with
      | Pending inf kp =>
          cases inf
          · simp [sign_next_scan, hs, eligible]
          · simp [sign_next_scan, hs, eligible, ih]
      | Signed s => simp [sign_next_scan, hs, eligible, ih]

theorem sign_next_scan_eq_some (b : List SignatureRequest) (i : Nat)
    (b' : List SignatureRequest) (t : TypedTransaction) (kp : String)
    (h : sign_next_scan b = some (i, b', t, kp)) :
    i < b.length ∧
    b.get? i = some { transaction := t
                      status := SignatureRequestStatus.Pending false kp } ∧
    b' = b.set i { transaction := t
                   status := SignatureRequestStatus.Pending true kp } ∧
    (∀ j, j < i → ∀ r, b.get? j = some r → eligible r = false) := by
  induction b generalizing i b' with
  | nil => simp [sign_next_scan] at h
  | cons r rest ih =>
      cases hs : r.status with
      | Pending inf kp0 =>
          cases inf
          · rw [sign_next_scan, hs] at h
            obtain ⟨t0, s0⟩ := r
            simp only [Option.some.injEq, Prod.mk.injEq] at h
            obtain ⟨hi, hb', ht, hkp⟩ := h
            subst hi hb' ht hkp
            simp only at hs
            subst hs
            refine ⟨by simp, by simp, by simp [List.set], ?_⟩
            intro j hj
            omega
          · rw [sign_next_scan, hs] at h
            rw [Option.map_eq_some'] at h
            obtain ⟨⟨i0, rest', t0, kp0'⟩, hrest, heq⟩ := h
            simp only [Prod.mk.injEq] at heq
            obtain ⟨hi, hb', ht, hkp⟩ := heq
            subst hi hb' ht hkp
            obtain ⟨hlen, hget, hset, hmin⟩ := ih i0 rest' hrest
            refine ⟨by simpa using hlen, by simpa using hget,
              by simp [List.set, hset], ?_⟩
            intro j hj r' hr'
            cases j with
            | zero =>
                simp only [List.get?] at hr'
                injection hr' with hr'
                rw [← hr']
                simp [eligible, hs]
            | succ j' =>
                exact hmin j' (by omega) r' (by simpa using hr')
      | Signed sig0 =>
          rw [sign_next_scan, hs] at h
          rw [Option.map_eq_some'] at h
          obtain ⟨⟨i0, rest', t0, kp0'⟩, hrest, heq⟩ := h
          simp only [Prod.mk.injEq] at heq
          obtain ⟨hi, hb', ht, hkp⟩ := heq
          subst hi hb' ht hkp
          obtain ⟨hlen, hget, hset, hmin⟩ := ih i0 rest' hrest
          refine ⟨by simpa using hlen, by simpa using hget,
            by simp [List.set, hset], ?_⟩
          intro j hj r' hr'
          cases j with
          | zero =>
              simp only [List.get?] at hr'
              injection hr' with hr'
              rw [← hr']
              simp [eligible, hs]
          | succ j' =>
              exact hmin j' (by omega) r' (by simpa using hr')

/-! ### Claim C2 — sign_next selects the first eligible entry -/

/-- Claim C2: for every stored batch, `sign_next` scans the sub-requests in
index order and selects the first whose status is `Pending` with
`in_flight = false`, marking it `in_flight = true` in the state it commits
before suspending; if no such entry exists (all signed or all in flight)
the call aborts fatally.  On a batch `[A, B]` with both entries
`Pending(in_flight = false)` it selects index `0`; once `A` is `Signed` the
next call selects index `1`; once both are `Signed` a further call
aborts. -/
theorem sign_next_selects_first_eligible :
    (∀ c : Contract, ∀ id : Nat, ∀ batch : List SignatureRequest,
        mapFind? c.pending_transactions id = some batch →
        (sign_next c id = none ↔ ∀ r ∈ batch, eligible r = false)) ∧
    (∀ c : Contract, ∀ id : Nat, ∀ c' : Contract, ∀ call : SignerCall,
        sign_next c id = some (c', call) →
        ∃ batch t kp,
          mapFind? c.pending_transactions id = some batch ∧
          call.cb_index < batch.length ∧
          batch.get? call.cb_index
            = some { transaction := t
                     status := SignatureRequestStatus.Pending false kp } ∧
          (∀ j, j < call.cb_index → ∀ r, batch.get? j = some r →
              eligible r = false) ∧
          call.payload = t ∧ call.key_path = kp ∧ call.cb_id = id ∧
          call.signer_contract_id = c.signer_contract_id ∧
          c' = { c with pending_transactions := (mapInsert
                   c.pending_transactions id (batch.set call.cb_index
                     { transaction := t
                       status := SignatureRequestStatus.Pending true kp })) }) ∧
    (∀ c : Contract, ∀ id : Nat, ∀ tA tB : TypedTransaction, ∀ kpA kpB : String,
        mapFind? c.pending_transactions id
          = some [{ transaction := tA
                    status := SignatureRequestStatus.Pending false kpA },
                  { transaction := tB
                    status := SignatureRequestStatus.Pending false kpB }] →
        ∃ c' call, sign_next c id = some (c', call) ∧ call.cb_index = 0) ∧
    (∀ c : Contract, ∀ id : Nat, ∀ tA tB : TypedTransaction,
      ∀ sigA : Signature, ∀ kpB : String,
        mapFind? c.pending_transactions id
          = some [{ transaction := tA
                    status := SignatureRequestStatus.Signed sigA },
                  { transaction := tB
                    status := SignatureRequestStatus.Pending false kpB }] →
        ∃ c' call, sign_next c id = some (c', call) ∧ call.cb_index = 1) ∧
    (∀ c : Contract, ∀ id : Nat, ∀ tA tB : TypedTransaction,
      ∀ sigA sigB : Signature,
        mapFind? c.pending_transactions id
          = some [{ transaction := tA
                    status := SignatureRequestStatus.Signed sigA },
                  { transaction := tB
                    status := SignatureRequestStatus.Signed sigB }] →
        sign_next c id = none) := by
  refine ⟨?_, ?_, ?_, ?_, ?_⟩
  · intro c id batch hfind
    constructor
    · intro h
      simp only [sign_next, hfind] at h
      cases hscan : sign_next_scan batch with
      | none => exact (sign_next_scan_eq_none_iff batch).mp hscan
      | some x =>
          obtain ⟨i, b', t, kp⟩ := x
          rw [hscan] at h
          exact Option.noConfusion h
    · intro hall
      have hscan : sign_next_scan batch = none :=
        (sign_next_scan_eq_none_iff batch).mpr hall
      simp [sign_next, hfind, hscan]
  · intro c id c' call h
    simp only [sign_next] at h
    cases hfind : mapFind? c.pending_transactions id with
    | none =>
        simp only [hfind] at h
        exact Option.noConfusion h
    | some batch =>
        simp only [hfind] at h
        cases hscan : sign_next_scan batch with
        | none =>
            simp only [hscan] at h
            exact Option.noConfusion h
        | some x =>
            obtain ⟨i, b', t, kp⟩ := x
            simp only [hscan, Option.some.injEq, Prod.mk.injEq] at h
            obtain ⟨hc', hcall⟩ := h
            obtain ⟨hlen, hget, hset, hmin⟩ :=
              sign_next_scan_eq_some batch i b' t kp hscan
            subst hcall
            refine ⟨batch, t, kp, rfl, hlen, hget, hmin, rfl, rfl, rfl, rfl, ?_⟩
            rw [← hc', hset]
  · intro c id tA tB kpA kpB hfind
    have hsn : sign_next c id
        = some ({ c with pending_transactions := (mapInsert
                    c.pending_transactions id
                    [{ transaction := tA
                       status := SignatureRequestStatus.Pending true kpA },
                     { transaction := tB
                       status := SignatureRequestStatus.Pending false kpB }]) },
                { signer_contract_id := c.signer_contract_id
                  payload := tA
                  key_path := kpA
                  cb_id := id
                  cb_index := 0 }) := by
      simp [sign_next, hfind, sign_next_scan]
    exact ⟨_, _, hsn, rfl⟩
  · intro c id tA tB sigA kpB hfind
    have hsn : sign_next c id
        = some ({ c with pending_transactions := (mapInsert
                    c.pending_transactions id
                    [{ transaction := tA
                       status := SignatureRequestStatus.Signed sigA },
                     { transaction := tB
                       status := SignatureRequestStatus.Pending true kpB }]) },
                { signer_contract_id := c.signer_contract_id
                  payload := tB
                  key_path := kpB
                  cb_id := id
                  cb_index := 1 }) := by
      simp [sign_next, hfind, sign_next_scan]
    exact ⟨_, _, hsn, rfl⟩
  · intro c id tA tB sigA sigB hfind
    simp [sign_next, hfind, sign_next_scan]

/-- Claim C2, witness: on the concrete two-entry batch
`[Pending(false), Pending(false)]` stored under id `0` in `cW`, `sign_next`
selects index `0`. -/
theorem sign_next_selects_first_eligible_witness :
    ∃ c' call,
      sign_next
        { cW with pending_transactions :=
            [(0, [SignatureRequest.new "$" txW,
                  SignatureRequest.new "alice.near" txW])] } 0
        = some (c', call) ∧ call.cb_index = 0 :=
  sign_next_selects_first_eligible.2.2.1 _ 0 txW txW "$" "alice.near" rfl

/-! ### Claim C1 — two suspended sign_next calls never pick the same entry -/

/-- Claim C1: on a two-entry batch, when two `sign_next` calls against the
same batch id both execute their selection step (the second runs on the
state the first committed before suspending, since the `in_flight` flag is
set synchronously as part of the same state transition), they never select
the same sub-request: when both entries were eligible the first gets index
`0` and the second gets index `1`; otherwise (only one entry was eligible)
the second call aborts fatally. -/
theorem sign_next_no_double_selection :
    ∀ c : Contract, ∀ id : Nat, ∀ r0 r1 : SignatureRequest,
      mapFind? c.pending_transactions id = some [r0, r1] →
      ∀ c1 : Contract, ∀ call1 : SignerCall,
        sign_next c id = some (c1, call1) →
        (∀ c2 : Contract, ∀ call2 : SignerCall,
            sign_next c1 id = some (c2, call2) →
            call1.cb_index ≠ call2.cb_index ∧
            call1.cb_index = 0 ∧ call2.cb_index = 1) ∧
        (eligible r0 = true → eligible r1 = true →
            call1.cb_index = 0 ∧ (sign_next c1 id).isSome = true ∧
            ∀ c2 : Contract, ∀ call2 : SignerCall,
              sign_next c1 id = some (c2, call2) → call2.cb_index = 1) ∧
        (¬ (eligible r0 = true ∧ eligible r1 = true) →
            sign_next c1 id = none) := by
  intro c id r0 r1 hb c1 call1 h1
  obtain ⟨t0, s0⟩ := r0
  obtain ⟨t1, s1⟩ := r1
  cases s0 with
  | Pending inf0 k0 =>
      cases inf0
      · cases s1 with
        | Pending inf1 k1 =>
            cases inf1
            · -- both eligible: first selects 0, second selects 1
              simp only [sign_next, hb, sign_next_scan, Option.some.injEq,
                Prod.mk.injEq] at h1
              obtain ⟨hc1, hcall1⟩ := h1
              subst hc1
              subst hcall1
              refine ⟨?_, ?_, ?_⟩
              · intro c2 call2 h2
                simp only [sign_next, mapFind?_insert_self, sign_next_scan,
                  Option.map_some', Option.some.injEq, Prod.mk.injEq] at h2
                obtain ⟨hc2, hcall2⟩ := h2
                subst hcall2
                exact ⟨by simp, rfl, rfl⟩
              · refine fun _ _ => ⟨rfl, ?_, ?_⟩
                · simp [sign_next, mapFind?_insert_self, sign_next_scan]
                · intro c2 call2 h2
                  simp only [sign_next, mapFind?_insert_self, sign_next_scan,
                    Option.map_some', Option.some.injEq, Prod.mk.injEq] at h2
                  obtain ⟨hc2, hcall2⟩ := h2
                  subst hcall2
                  rfl
              · intro hne
                exact absurd ⟨rfl, rfl⟩ hne
            · -- r1 already in flight: second call aborts
              simp only [sign_next, hb, sign_next_scan, Option.some.injEq,
                Prod.mk.injEq] at h1
              obtain ⟨hc1, hcall1⟩ := h1
              subst hc1
              subst hcall1
              refine ⟨?_, ?_, ?_⟩
              · intro c2 call2 h2
                simp [sign_next, mapFind?_insert_self, sign_next_scan] at h2
              · intro _ h'
                simp [eligible] at h'
              · intro _
                simp [sign_next, mapFind?_insert_self, sign_next_scan]
        | Signed sig1 =>
            simp only [sign_next, hb, sign_next_scan, Option.some.injEq,
              Prod.mk.injEq] at h1
            obtain ⟨hc1, hcall1⟩ := h1
            subst hc1
            subst hcall1
            refine ⟨?_, ?_, ?_⟩
            · intro c2 call2 h2
              simp [sign_next, mapFind?_insert_self, sign_next_scan] at h2
            · intro _ h'
              simp [eligible] at h'
            · intro _
              simp [sign_next, mapFind?_insert_self, sign_next_scan]
      · cases s1 with
        | Pending inf1 k1 =>
            cases inf1
            · -- only r1 eligible: first selects 1, second aborts
              simp only [sign_next, hb, sign_next_scan, Option.map_some',
                Option.some.injEq, Prod.mk.injEq] at h1
              obtain ⟨hc1, hcall1⟩ := h1
              subst hc1
              subst hcall1
              refine ⟨?_, ?_, ?_⟩
              · intro c2 call2 h2
                simp [sign_next, mapFind?_insert_self, sign_next_scan] at h2
              · intro h' _
                simp [eligible] at h'
              · intro _
                simp [sign_next, mapFind?_insert_self, sign_next_scan]
            · simp [sign_next, hb, sign_next_scan] at h1
        | Signed sig1 =>
            simp [sign_next, hb, sign_next_scan] at h1
  | Signed sig0 =>
      cases s1 with
      | Pending inf1 k1 =>
          cases inf1
          · simp only [sign_next, hb, sign_next_scan, Option.map_some',
              Option.some.injEq, Prod.mk.injEq] at h1
            obtain ⟨hc1, hcall1⟩ := h1
            subst hc1
            subst hcall1
            refine ⟨?_, ?_, ?_⟩
            · intro c2 call2 h2
              simp [sign_next, mapFind?_insert_self, sign_next_scan] at h2
            · intro h' _
              simp [eligible] at h'
            · intro _
              simp [sign_next, mapFind?_insert_self, sign_next_scan]
          · simp [sign_next, hb, sign_next_scan] at h1
      | Signed sig1 =>
          simp [sign_next, hb, sign_next_scan] at h1

/-- Claim C1, witness: both entries of the stored batch are eligible; the
state committed by the first selection yields a second state in which
`sign_next` still succeeds (on the other index). -/
theorem sign_next_no_double_selection_witness :
    (sign_next
      { cW with pending_transactions :=
          [(0, [{ transaction := txW
                  status := SignatureRequestStatus.Pending true "$" },
                SignatureRequest.new "alice.near" txW])] } 0).isSome = true :=
  ((sign_next_no_double_selection
      { cW with pending_transactions :=
          [(0, [SignatureRequest.new "$" txW,
                SignatureRequest.new "alice.near" txW])] }
      0 (SignatureRequest.new "$" txW) (SignatureRequest.new "alice.near" txW)
      rfl
      { cW with pending_transactions :=
          [(0, [{ transaction := txW
                  status := SignatureRequestStatus.Pending true "$" },
                SignatureRequest.new "alice.near" txW])] }
      { signer_contract_id := "signer.near"
        payload := txW
        key_path := "$"
        cb_id := 0
        cb_index := 0 }
      rfl).2.1 rfl rfl).2.1

/-! ### Claim C4 — status lifecycle invariants -/

theorem statusOf_eq_some (c : Contract) (tid idx : Nat)
    (s : SignatureRequestStatus) :
    statusOf c tid idx = some s ↔
      ∃ batch r, mapFind? c.pending_transactions tid = some batch ∧
        batch.get? idx = some r ∧ r.status = s := by
  simp only [statusOf, Option.bind_eq_some, Option.map_eq_some']
  constructor
  · rintro ⟨batch, hfind, r, hget, hs⟩
    exact ⟨batch, r, hfind, hget, hs⟩
  · rintro ⟨batch, r, hfind, hget, hs⟩
    exact ⟨batch, hfind, r, hget, hs⟩

theorem sign_next_eq_some_spec (c : Contract) (id : Nat) (c' : Contract)
    (call : SignerCall) (h : sign_next c id = some (c', call)) :
    ∃ batch t kp,
      mapFind? c.pending_transactions id = some batch ∧
      call.cb_index < batch.length ∧
      batch.get? call.cb_index
        = some { transaction := t
                 status := SignatureRequestStatus.Pending false kp } ∧
      call.payload = t ∧ call.key_path = kp ∧ call.cb_id = id ∧
      c' = { c with pending_transactions := (mapInsert
               c.pending_transactions id (batch.set call.cb_index
                 { transaction := t
                   status := SignatureRequestStatus.Pending true kp })) } := by
  simp only [sign_next] at h
  cases hfind : mapFind? c.pending_transactions id with
  | none =>
      simp only [hfind] at h
      exact Option.noConfusion h
  | some batch =>
      simp only [hfind] at h
      cases hscan : sign_next_scan batch with
      | none =>
          simp only [hscan] at h
          exact Option.noConfusion h
      | some x =>
          obtain ⟨i, b', t, kp⟩ := x
          simp only [hscan, Option.some.injEq, Prod.mk.injEq] at h
          obtain ⟨hc', hcall⟩ := h
          obtain ⟨hlen, hget, hset, hmin⟩ :=
            sign_next_scan_eq_some batch i b' t kp hscan
          subst hcall
          refine ⟨batch, t, kp, rfl, hlen, hget, rfl, rfl, rfl, ?_⟩
          rw [← hc', hset]

theorem sign_next_callback_eq_some_spec
    (ser : TypedTransaction → Signature → String) (c : Contract)
    (id idx : Nat) (result : Option Signature) (c' : Contract) (out : String)
    (h : sign_next_callback ser c id idx result = some (c', out)) :
    ∃ batch r sig,
      mapFind? c.pending_transactions id = some batch ∧
      batch.get? idx = some r ∧ r.is_pending = true ∧ result = some sig ∧
      out = ser r.transaction sig ∧
      c' = { c with pending_transactions := (mapInsert
               c.pending_transactions id
               (batch.set idx (r.set_signature sig))) } := by
  simp only [sign_next_callback] at h
  cases hfind : mapFind? c.pending_transactions id with
  | none =>
      simp only [hfind] at h
      exact Option.noConfusion h
  | some batch =>
      simp only [hfind] at h
      cases hget : batch.get? idx with
      | none =>
          simp only [hget] at h
          exact Option.noConfusion h
      | some r =>
          simp only [hget] at h
          by_cases hp : r.is_pending
          · rw [if_neg (by simpa using hp)] at h
            cases result with
            | none => exact Option.noConfusion h
            | some sig =>
                simp only [Option.some.injEq, Prod.mk.injEq] at h
                obtain ⟨hc', hout⟩ := h
                exact ⟨batch, r, sig, rfl, hget, hp, rfl, hout.symm, hc'.symm⟩
          · rw [if_pos (by simpa using hp)] at h
            exact Option.noConfusion h

/-- Claim C4: once a sub-request is `Signed` it never goes back to
`Pending` — both `sign_next` and a successful `sign_next_callback` leave
every already-`Signed` entry untouched, and `sign_next_callback` aborts
fatally when pointed at an already-`Signed` entry; `in_flight` is set to
`true` only by the dispatch step of `sign_next` (which requires the entry
to be `Pending` and not in flight) and is never reset to `false` — in
particular a failed signer call makes `sign_next_callback` abort, leaving
the dispatched entry `Pending` with `in_flight = true`. -/
theorem signature_lifecycle_invariants :
    (∀ c : Contract, ∀ id : Nat, ∀ c' : Contract, ∀ call : SignerCall,
        sign_next c id = some (c', call) →
        (∀ tid idx : Nat, ∀ sig : Signature,
            statusOf c tid idx = some (SignatureRequestStatus.Signed sig) →
            statusOf c' tid idx = some (SignatureRequestStatus.Signed sig)) ∧
        (∀ tid idx : Nat, ∀ kp : String,
            statusOf c tid idx
              = some (SignatureRequestStatus.Pending true kp) →
            statusOf c' tid idx
              = some (SignatureRequestStatus.Pending true kp)) ∧
        statusOf c call.cb_id call.cb_index
          = some (SignatureRequestStatus.Pending false call.key_path) ∧
        statusOf c' call.cb_id call.cb_index
          = some (SignatureRequestStatus.Pending true call.key_path)) ∧
    (∀ ser : TypedTransaction → Signature → String, ∀ c : Contract,
      ∀ id idx : Nat, ∀ result : Option Signature, ∀ sig : Signature,
        statusOf c id idx = some (SignatureRequestStatus.Signed sig) →
        sign_next_callback ser c id idx result = none) ∧
    (∀ ser : TypedTransaction → Signature → String, ∀ c : Contract,
      ∀ id idx : Nat,
        sign_next_callback ser c id idx none = none) ∧
    (∀ ser : TypedTransaction → Signature → String, ∀ c : Contract,
      ∀ id idx : Nat, ∀ sig : Signature, ∀ c' : Contract, ∀ out : String,
        sign_next_callback ser c id idx (some sig) = some (c', out) →
        statusOf c' id idx = some (SignatureRequestStatus.Signed sig) ∧
        ∀ tid jdx : Nat, tid ≠ id ∨ jdx ≠ idx →
          statusOf c' tid jdx = statusOf c tid jdx) := by
  refine ⟨?_, ?_, ?_, ?_⟩
  · intro c id c' call h
    obtain ⟨batch, t, kp, hfind, hlen, hget, hpay, hkp, hcbid, hc'⟩ :=
      sign_next_eq_some_spec c id c' call h
    subst hc'
    refine ⟨?_, ?_, ?_, ?_⟩
    · intro tid idx sig hst
      rw [statusOf_eq_some] at hst ⊢
      obtain ⟨batch0, r, hfind0, hget0, hs0⟩ := hst
      by_cases htid : tid = id
      · subst htid
        rw [hfind0] at hfind
        injection hfind with hbb
        subst hbb
        have hne : idx ≠ call.cb_index := by
          intro he
          subst he
          rw [hget0] at hget
          injection hget with hr
          rw [hr] at hs0
          exact SignatureRequestStatus.noConfusion hs0
        refine ⟨_, r, mapFind?_insert_self _ _ _, ?_, hs0⟩
        rw [List.get?_set_ne _ _ (Ne.symm hne)]
        exact hget0
      · refine ⟨batch0, r, ?_, hget0, hs0⟩
        rw [mapFind?_insert_ne _ _ _ _ htid]
        exact hfind0
    · intro tid idx kp0 hst
      rw [statusOf_eq_some] at hst ⊢
      obtain ⟨batch0, r, hfind0, hget0, hs0⟩ := hst
      by_cases htid : tid = id
      · subst htid
        rw [hfind0] at hfind
        injection hfind with hbb
        subst hbb
        have hne : idx ≠ call.cb_index := by
          intro he
          subst he
          rw [hget0] at hget
          injection hget with hr
          rw [hr] at hs0
          simp at hs0
        refine ⟨_, r, mapFind?_insert_self _ _ _, ?_, hs0⟩
        rw [List.get?_set_ne _ _ (Ne.symm hne)]
        exact hget0
      · refine ⟨batch0, r, ?_, hget0, hs0⟩
        rw [mapFind?_insert_ne _ _ _ _ htid]
        exact hfind0
    · rw [statusOf_eq_some, hcbid, hkp]
      exact ⟨batch, _, hfind, hget, rfl⟩
    · rw [statusOf_eq_some, hcbid, hkp]
      exact ⟨_, _, mapFind?_insert_self _ _ _,
        List.get?_set_eq_of_lt _ hlen, rfl⟩
  · intro ser c id idx result sig hst
    rw [statusOf_eq_some] at hst
    obtain ⟨batch, r, hfind, hget, hs⟩ := hst
    have hp : r.is_pending = false := by
      simp [SignatureRequest.is_pending, hs]
    simp only [sign_next_callback, hfind, hget]
    rw [if_pos (by simp [hp])]
  · intro ser c id idx
    unfold sign_next_callback
    split
    · rfl
    · split
      · rfl
      · split
        · rfl
        · rfl
  · intro ser c id idx sig c' out h
    obtain ⟨batch, r, sig', hfind, hget, hp, hres, hout, hc'⟩ :=
      sign_next_callback_eq_some_spec ser c id idx (some sig) c' out h
    injection hres with hsig
    subst hsig
    subst hc'
    have hlt : idx < batch.length := by
      obtain ⟨h1, -⟩ := List.get?_eq_some.mp hget
      exact h1
    constructor
    · rw [statusOf_eq_some]
      exact ⟨_, _, mapFind?_insert_self _ _ _,
        List.get?_set_eq_of_lt _ hlt, rfl⟩
    · intro tid jdx hne
      by_cases htid : tid = id
      · subst htid
        rcases hne with hne | hne
        · exact absurd rfl hne
        · simp only [statusOf, mapFind?_insert_self, hfind, Option.some_bind]
          rw [List.get?_set_ne _ _ (Ne.symm hne)]
      · simp only [statusOf]
        rw [mapFind?_insert_ne _ _ _ _ htid]

/-- Claim C4, witness: on a concrete single-entry batch whose entry is
already `Signed`, `sign_next_callback` aborts for any result, here with a
trivial serializer. -/
theorem signature_lifecycle_invariants_witness :
    sign_next_callback (fun _ _ => "")
      { cW with pending_transactions :=
          [(0, [{ transaction := txW
                  status := SignatureRequestStatus.Signed
                    { r := 1, s := 2, v := 3 } }])] }
      0 0 (some { r := 4, s := 5, v := 6 }) = none :=
  signature_lifecycle_invariants.2.1 (fun _ _ => "") _ 0 0
    (some { r := 4, s := 5, v := 6 }) { r := 1, s := 2, v := 3 } rfl

/-! ### Claim C5 — deposit versus fee settlement in the initiation callback -/

/-- Claim C5: comparing the attached deposit to the computed fee in
`initiate_transaction_callback`: if `deposit < fee` the whole initiation
aborts with no batch persisted and no transfer issued; if `deposit = fee`
the call succeeds issuing no refund transfer; if `deposit > fee` it
succeeds issuing exactly one refund transfer of `deposit - fee` to the
original caller. -/
theorem deposit_fee_settlement :
    ∀ c : Contract, ∀ env_predecessor : AccountId, ∀ block_height : Nat,
    ∀ predecessor : AccountId, ∀ deposit : Nat, ∀ t : TypedTransaction,
    ∀ pd : PriceData, ∀ gtp : GasTokenPrice, ∀ amt fee : Nat,
    ∀ cid : Nat, ∀ sender : XChainAddress,
      process_oracle_result c (some pd) block_height = some gtp →
      tokens_for_gas t = some amt →
      transaction_fee gtp.local_per_xchain c.price_scale amt = some fee →
      t.chain_id = some cid →
      t.tx_from = some sender →
      c.next_unique_id ≠ 2 ^ 64 - 1 →
      (deposit < fee →
        initiate_transaction_callback c env_predecessor block_height
          predecessor deposit t (some pd) = none) ∧
      (deposit = fee →
        ∃ c' init,
          initiate_transaction_callback c env_predecessor block_height
            predecessor deposit t (some pd) = some (c', [], init)) ∧
      (fee < deposit →
        ∃ c' init,
          initiate_transaction_callback c env_predecessor block_height
            predecessor deposit t (some pd)
            = some (c', [{ receiver := predecessor
                           amount := deposit - fee }], init)) := by
  intro c env_predecessor block_height predecessor deposit t pd gtp amt fee
    cid sender hpor htg hfee hcid hfrom hid
  refine ⟨?_, ?_, ?_⟩
  · intro hlt
    simp only [initiate_transaction_callback, hpor, htg, hfee]
    rw [if_pos hlt]
  · intro heq
    subst heq
    simp only [initiate_transaction_callback, hpor, htg, hfee, hcid, hfrom]
    rw [if_neg (lt_irrefl deposit), if_neg hid]
    have htr : (if deposit - deposit = 0 then ([] : List Transfer)
        else [{ receiver := predecessor, amount := deposit - deposit }]) = [] := by
      simp
    rw [htr]
    exact ⟨_, _, rfl⟩
  · intro hgt
    simp only [initiate_transaction_callback, hpor, htg, hfee, hcid, hfrom]
    rw [if_neg (by omega : ¬ deposit < fee), if_neg hid]
    have htr : (if deposit - fee = 0 then ([] : List Transfer)
        else [{ receiver := predecessor, amount := deposit - fee }])
        = [{ receiver := predecessor, amount := deposit - fee }] := by
      rw [if_neg (by omega)]
    rw [htr]
    exact ⟨_, _, rfl⟩

/-- Claim C5, witness: with the concrete oracle response `pdW` the
conversion rate is `(168, 90)`, `txW` needs `15` gas tokens, the fee is
`34`; a deposit of `1000` yields exactly one refund transfer of `966` to
the original caller. -/
theorem deposit_fee_settlement_witness :
    ∃ c' init,
      initiate_transaction_callback cW "relay.near" 99 "alice.near" 1000 txW
        (some pdW)
        = some (c', [{ receiver := "alice.near", amount := 1000 - 34 }], init) :=
  (deposit_fee_settlement cW "relay.near" 99 "alice.near" 1000 txW pdW
      { local_per_xchain := (168, 90), updated_at_block_height := 99 }
      15 34 1 42 rfl rfl rfl rfl rfl (by decide)).2.2 (by decide)

/-! ### Claim C9 — validation is synchronous and precedes the oracle call -/

/-- Claim C9: for every inbound transaction, `initiate_transaction` aborts
before issuing any oracle request — returning the state unchanged and no
outbound oracle call — whenever gas or gas price is missing, the chain id
is missing, the receiver is a human-readable name or absent, or an enabled
sender/receiver whitelist check fails. -/
theorem validation_precedes_oracle :
    ∀ c : Contract, ∀ env_predecessor : AccountId, ∀ deposit : Nat,
    ∀ decode : String → Option TypedTransaction,
    ∀ tj : Option TypedTransaction, ∀ tr : Option String,
    ∀ t : TypedTransaction,
      extract_transaction decode tj tr = some t →
      (t.gas = none ∨ t.gas_price = none ∨ t.chain_id = none ∨
        (∃ s, t.tx_to = some (NameOrAddress.Name s)) ∨ t.tx_to = none ∨
        (c.flags.is_receiver_whitelist_enabled = true ∧
          ∃ a, t.tx_to = some (NameOrAddress.Addr a) ∧
            c.receiver_whitelist.contains a = false) ∨
        (c.flags.is_sender_whitelist_enabled = true ∧
          (t.tx_from = none ∨
            ∃ f, t.tx_from = some f ∧
              c.sender_whitelist.contains f = false))) →
      initiate_transaction c env_predecessor deposit decode tj tr
        = (c, none) := by
  intro c env_predecessor deposit decode tj tr t hext hbad
  have hval : validate_transaction c t = false := by
    rcases hbad with h | h | h | ⟨s, h⟩ | h | ⟨hw, a, hto, hcon⟩ | ⟨hw, h⟩
    · simp [validate_transaction, h]
    · simp [validate_transaction, h]
    · simp [validate_transaction, h]
    · simp [validate_transaction, h]
    · simp [validate_transaction, h]
    · have hmem : a ∉ c.receiver_whitelist := by simpa using hcon
      simp [validate_transaction, hw, hto, hmem]
    · rcases h with h | ⟨f, hf, hcon⟩
      · simp [validate_transaction, hw, h]
      · have hmem : f ∉ c.sender_whitelist := by simpa using hcon
        simp [validate_transaction, hw, hf, hmem]
  by_cases hdep : deposit = 0
  · simp [initiate_transaction, hdep]
  · simp [initiate_transaction, hdep, hext, hval]

/-- Claim C9, witness: a transaction with no explicit gas is rejected
before any oracle call — `initiate_transaction` returns the unchanged
state and no oracle request. -/
theorem validation_precedes_oracle_witness :
    initiate_transaction cW "alice.near" 5 (fun _ => none)
      (some { txW with gas := none }) none = (cW, none) :=
  validation_precedes_oracle cW "alice.near" 5 (fun _ => none)
    (some { txW with gas := none }) none { txW with gas := none }
    rfl (Or.inl rfl)

/-! ### Claim C3 — the two-entry batch persisted by a successful initiation -/

/-- Claim C3: evaluation of `initiate_transaction_callback` at a concrete
successful initiation (contract account `"relay.near"`, original caller
`"alice.near"`, deposit `1000`, transaction `txW`, well-formed oracle
response `pdW`).  The call persists exactly one new two-entry batch, both
entries `Pending{in_flight := false}`, entry `0` the paymaster transaction
(same chain id as the original, destination the original sender `42`,
value the gas-token amount `15`, key path the sentinel `"$"`), and returns
batch id `0` with pending count `2` — but entry `1`'s key path is
`"relay.near"`, the value of `env::predecessor_account_id()` inside the
`#[private]` callback (always the contract's own account), not the original
caller `"alice.near"` that the `predecessor` argument carries. -/
theorem initiate_callback_keypath_C3 :
    ∃ c' : Contract, ∃ trs : List Transfer, ∃ init : TransactionInitiation,
      initiate_transaction_callback cW "relay.near" 99 "alice.near" 1000 txW
        (some pdW) = some (c', trs, init) ∧
      mapFind? c'.pending_transactions 0 = some
        [{ transaction := { gas := none
                            gas_price := none
                            chain_id := some 1
                            tx_to := some (NameOrAddress.Addr 42)
                            tx_from := none
                            value := some 15 }
           status := SignatureRequestStatus.Pending false "$" },
         { transaction := txW
           status := SignatureRequestStatus.Pending false "relay.near" }] ∧
      init = { id := 0, pending_signature_count := 2 } ∧
      statusOf c' 0 1
        = some (SignatureRequestStatus.Pending false "relay.near") ∧
      "relay.near" ≠ "alice.near" := by
  refine ⟨_, _, _, rfl, rfl, rfl, rfl, ?_⟩
  decide

/-- Claim C7, witness: the amended theorem applied at the neither-supplied
input: the call aborts. -/
theorem extract_transaction_spec_witness :
    extract_transaction (fun _ => none) none none = none :=
  extract_transaction_spec.1 (fun _ => none)
